import Mathlib

/-!
Verification of the resilience / chunking / metrics core of the
parliamentary-hearing analysis pipeline.

The development shallowly embeds the relevant Python source:

* `src/utils/retry.py`   — `async_retry` (retry with exponential backoff and
  `asyncio.wait_for` timeout) as a pure trace-producing function;
* `src/modules/analysis.py` — `Analyzer._chunk_transcript` (sentence-boundary
  chunk splitting) and `Analyzer._combine_analyses` (structured merge);
* `src/modules/transcription.py` — `Transcriber._combine_chunks` (text merge);
* `src/app.py` — `process_url`, `generate_consolidated_analysis`, and the
  consolidation decision in `main`;
* `src/utils/metrics.py` — `MetricsCollector.save_metrics` and
  `MetricsCollector.get_metrics_summary`.

Machine reals (Python floats used for delays and durations) are modelled as
exact rationals; text is modelled as `String` or as `List Char` where
character-level recursion is needed; the filesystem of the metrics directory
is modelled as an association list from file stems to parsed records.
-/

/-! ### Embedding of `src/utils/retry.py` (`async_retry`) -/

/-- A Python exception, abstracted to an identifier plus whether the exception
is an `asyncio.TimeoutError` (the class caught by the first `except` clause
of `async_retry`). -/
structure Exc where
  excId : Nat
  timeoutLike : Bool
deriving DecidableEq, Repr

/-- The `asyncio.TimeoutError` raised by `asyncio.wait_for` on expiry. -/
def asyncioTimeoutError : Exc := ⟨0, true⟩

/-- Outcome of one raw invocation of the wrapped coroutine: the value it
returns or the exception it raises, together with the wall time the
invocation would take to do so. -/
inductive RawOutcome (α : Type) where
  | ok (v : α) (dur : ℚ)
  | exn (e : Exc) (dur : ℚ)
deriving DecidableEq, Repr

/-- Wall time consumed by a raw invocation. -/
def RawOutcome.dur {α : Type} : RawOutcome α → ℚ
  | .ok _ d => d
  | .exn _ d => d

/-- `asyncio.wait_for(func(...), timeout=T)`: when a timeout is set and the
invocation would run longer, a fresh `asyncio.TimeoutError` is raised after
exactly `T` seconds; otherwise the raw outcome stands (lines 49-54 of
`retry.py`). -/
def waitFor {α : Type} (timeout : Option ℚ) (raw : RawOutcome α) : RawOutcome α :=
  match timeout with
  | none => raw
  | some T => if T < raw.dur then .exn asyncioTimeoutError T else raw

/-- Observable events of one `async_retry` run, in program order. -/
inductive RetryEvent where
  | attempt (k : Nat) (dur : ℚ)
  | observerCall (e : Exc) (k : Nat)
  | sleep (d : ℚ)
deriving DecidableEq, Repr

/-- Result of an `async_retry` run.  `retryExhausted e` models the
`RetryError` raised `from` the last exception `e` (lines 77 and 80);
`uncaught e` models an exception not matched by the `exceptions` parameter
propagating out of the wrapper; `noneResult` models the implicit `None`
return when the loop body never runs (unreachable for a natural
`max_retries`). -/
inductive RunResult (α : Type) where
  | success (v : α)
  | retryExhausted (lastCause : Exc)
  | uncaught (e : Exc)
  | noneResult
deriving DecidableEq, Repr

/-- Retry policy: the keyword arguments of the `async_retry` decorator. -/
structure RetryPolicy where
  maxRetries : Nat
  delay : ℚ
  backoff : ℚ
  timeout : Option ℚ
deriving DecidableEq, Repr

/-- One unrolling of the `for attempt in range(max_retries + 1)` loop of
`async_retry` (lines 44-80 of `retry.py`).  `fuel` is the number of loop
iterations still to run (`max_retries + 1` at entry), `k` the current 0-based
attempt index, `curDelay` mirrors `current_delay`, `last` mirrors
`last_exception`.  `excMatches` is the `exceptions` parameter, `hasOnRetry`
whether an `on_retry` observer was supplied.  Returns the result paired with
the ordered trace of attempts, observer calls and backoff sleeps. -/
def retryAux {α : Type} (excMatches : Exc → Bool) (hasOnRetry : Bool)
    (timeout : Option ℚ) (backoff : ℚ) (op : Nat → RawOutcome α) :
    Nat → Nat → ℚ → Option Exc → RunResult α × List RetryEvent
  | 0, _, _, last =>
    (match last with
     | some e => .retryExhausted e
     | none => .noneResult, [])
  | fuel + 1, k, curDelay, _ =>
    match waitFor timeout (op k) with
    | .ok v d => (.success v, [.attempt k d])
    | .exn e d =>
      if e.timeoutLike then
        -- `except asyncio.TimeoutError`: record the cause and loop again,
        -- with no observer call, no sleep and no delay growth
        let r := retryAux excMatches hasOnRetry timeout backoff op fuel (k + 1) curDelay (some e)
        (r.1, .attempt k d :: r.2)
      else if excMatches e then
        if fuel = 0 then
          -- final attempt: `raise RetryError(...) from e`
          (.retryExhausted e, [.attempt k d])
        else
          -- observer (when present), backoff sleep, delay growth, loop again
          let r := retryAux excMatches hasOnRetry timeout backoff op fuel (k + 1)
            (curDelay * backoff) (some e)
          (r.1, .attempt k d ::
            ((if hasOnRetry then [.observerCall e k] else []) ++ .sleep curDelay :: r.2))
      else
        (.uncaught e, [.attempt k d])

/-- `async_retry(max_retries, delay, backoff, exceptions, timeout, on_retry)`
applied to an operation whose `k`-th invocation behaves as `op k`. -/
def async_retry {α : Type} (P : RetryPolicy) (excMatches : Exc → Bool)
    (hasOnRetry : Bool) (op : Nat → RawOutcome α) : RunResult α × List RetryEvent :=
  retryAux excMatches hasOnRetry P.timeout P.backoff op (P.maxRetries + 1) 0 P.delay none

/-- Number of attempts recorded in a trace. -/
def attemptCount (tr : List RetryEvent) : Nat :=
  tr.countP fun ev => match ev with | .attempt _ _ => true | _ => false

/-- Number of observer (`on_retry`) invocations recorded in a trace. -/
def observerCount (tr : List RetryEvent) : Nat :=
  tr.countP fun ev => match ev with | .observerCall _ _ => true | _ => false

/-- Cumulative backoff sleep recorded in a trace. -/
def sleepTotal (tr : List RetryEvent) : ℚ :=
  (tr.filterMap fun ev => match ev with | .sleep d => some d | _ => none).sum

/-- Cumulative wall time of a trace: attempt durations plus sleeps. -/
def elapsedTotal (tr : List RetryEvent) : ℚ :=
  (tr.map fun ev =>
    match ev with
    | .attempt _ d => d
    | .sleep d => d
    | .observerCall _ _ => 0).sum

/-- The exact trace produced by `async_retry` over an operation whose every
attempt raises a retryable (matched, non-timeout) exception: attempt `k`
fails, the observer fires for it, the wrapper sleeps the current delay, and
the delay is multiplied by the backoff factor; the final attempt only
fails. -/
def failTrace (e : Nat → Exc) (d : Nat → ℚ) (backoff : ℚ) :
    ℚ → Nat → Nat → List RetryEvent
  | _, k, 0 => [.attempt k (d k)]
  | c, k, fuel + 1 =>
    .attempt k (d k) :: .observerCall (e k) k :: .sleep c ::
      failTrace e d backoff (c * backoff) (k + 1) fuel

/-- Sanity: a first-attempt success produces one attempt and no sleep. -/
example :
    async_retry ⟨3, 1, 2, none⟩ (fun _ => true) true (fun _ => .ok 7 (5 : ℚ)) =
      (.success 7, [.attempt 0 5]) := by
  decide

/-- Helper: over an operation whose every attempt raises a matched,
non-timeout exception (and with no per-attempt timeout), the retry loop runs
all its iterations, produces exactly the `failTrace` interleaving, and ends
raising `RetryError` from the exception of the last attempt. -/
theorem retryAux_always_fail {α : Type} (excMatches : Exc → Bool)
    (backoff : ℚ) (op : Nat → RawOutcome α) (e : Nat → Exc) (d : Nat → ℚ)
    (hop : ∀ k, op k = .exn (e k) (d k))
    (htl : ∀ k, (e k).timeoutLike = false)
    (hm : ∀ k, excMatches (e k) = true) :
    ∀ fuel k c last, retryAux excMatches true none backoff op (fuel + 1) k c last =
      (.retryExhausted (e (k + fuel)), failTrace e d backoff c k fuel) := by
  intro fuel
  induction fuel with
  | zero =>
    intro k c last
    simp [retryAux, waitFor, hop k, htl k, hm k, failTrace]
  | succ fuel ih =>
    intro k c last
    have harith : k + 1 + fuel = k + (fuel + 1) := by omega
    rw [retryAux.eq_3, hop k]
    simp only [waitFor, htl k, hm k]
    simp only [Bool.false_eq_true, if_false, Nat.succ_ne_zero, ite_false, ite_true,
      if_true, Nat.add_eq_zero, and_false, one_ne_zero]
    rw [ih]
    simp [failTrace, harith]

/-- Helper: `failTrace` records one attempt per loop iteration plus the
final attempt. -/
theorem attemptCount_failTrace (e : Nat → Exc) (d : Nat → ℚ) (b : ℚ) :
    ∀ fuel c k, attemptCount (failTrace e d b c k fuel) = fuel + 1 := by
  intro fuel
  induction fuel with
  | zero => intro c k; simp [failTrace, attemptCount]
  | succ fuel ih =>
    intro c k
    simp only [failTrace, attemptCount, List.countP_cons] at *
    simp [ih]

/-- Helper: the backoff sleeps of `failTrace` sum to the closed geometric
form `c * (b ^ fuel - 1) / (b - 1)`. -/
theorem sleepTotal_failTrace (e : Nat → Exc) (d : Nat → ℚ) (b : ℚ) (hb : b ≠ 1) :
    ∀ fuel c k, sleepTotal (failTrace e d b c k fuel) =
      c * (b ^ fuel - 1) / (b - 1) := by
  have hb1 : b - 1 ≠ 0 := sub_ne_zero.mpr hb
  intro fuel
  induction fuel with
  | zero => intro c k; simp [failTrace, sleepTotal]
  | succ fuel ih =>
    intro c k
    simp only [failTrace, sleepTotal, List.filterMap_cons] at *
    rw [List.sum_cons, ih]
    field_simp
    ring

/-- C1: for an operation failing on every attempt with a retryable (matched,
non-timeout) exception, `async_retry` makes exactly `maxRetries + 1`
attempts, raises `RetryError` from the last attempt's exception, and its
backoff sleeps sum to exactly — hence at least —
`delay * (backoff ^ maxRetries - 1) / (backoff - 1)`. -/
theorem C1_retry_exhaustion_attempts_and_backoff {α : Type} (P : RetryPolicy)
    (excMatches : Exc → Bool) (op : Nat → RawOutcome α) (e : Nat → Exc) (d : Nat → ℚ)
    (hop : ∀ k, op k = .exn (e k) (d k))
    (htl : ∀ k, (e k).timeoutLike = false)
    (hm : ∀ k, excMatches (e k) = true)
    (hT : P.timeout = none)
    (hb : P.backoff ≠ 1) :
    (async_retry P excMatches true op).1 = .retryExhausted (e P.maxRetries) ∧
    attemptCount (async_retry P excMatches true op).2 = P.maxRetries + 1 ∧
    sleepTotal (async_retry P excMatches true op).2 =
      P.delay * (P.backoff ^ P.maxRetries - 1) / (P.backoff - 1) ∧
    P.delay * (P.backoff ^ P.maxRetries - 1) / (P.backoff - 1) ≤
      sleepTotal (async_retry P excMatches true op).2 := by
  have h := retryAux_always_fail excMatches P.backoff op e d hop htl hm
    P.maxRetries 0 P.delay none
  rw [async_retry, hT, h]
  refine ⟨by simp, ?_, ?_, ?_⟩
  · exact attemptCount_failTrace e d P.backoff P.maxRetries P.delay 0
  · exact sleepTotal_failTrace e d P.backoff hb P.maxRetries P.delay 0
  · rw [sleepTotal_failTrace e d P.backoff hb P.maxRetries P.delay 0]

/-- Witness for C1 at `maxRetries = 2`, `delay = 1`, `backoff = 2` and an
operation always raising exception `⟨1, false⟩`. -/
theorem C1_witness :
    (async_retry ⟨2, 1, 2, none⟩ (fun _ => true) true
        (fun _ => RawOutcome.exn ⟨1, false⟩ 0) (α := Nat)).1 =
      .retryExhausted ⟨1, false⟩ ∧
    attemptCount (async_retry ⟨2, 1, 2, none⟩ (fun _ => true) true
        (fun _ => RawOutcome.exn ⟨1, false⟩ 0) (α := Nat)).2 = 2 + 1 ∧
    sleepTotal (async_retry ⟨2, 1, 2, none⟩ (fun _ => true) true
        (fun _ => RawOutcome.exn ⟨1, false⟩ 0) (α := Nat)).2 =
      1 * ((2 : ℚ) ^ 2 - 1) / (2 - 1) ∧
    1 * ((2 : ℚ) ^ 2 - 1) / (2 - 1) ≤
      sleepTotal (async_retry ⟨2, 1, 2, none⟩ (fun _ => true) true
        (fun _ => RawOutcome.exn ⟨1, false⟩ 0) (α := Nat)).2 :=
  C1_retry_exhaustion_attempts_and_backoff ⟨2, 1, 2, none⟩ (fun _ => true)
    (fun _ => RawOutcome.exn ⟨1, false⟩ 0) (fun _ => ⟨1, false⟩) (fun _ => 0)
    (fun _ => rfl) (fun _ => rfl) (fun _ => rfl) rfl (by norm_num)

/-- C2 (code evaluated at the failing input): with `max_retries = 3` and a
per-attempt `timeout` of 300, an operation that always overruns the timeout
is started 4 times — each timed-out attempt merely consumes one retry and
the loop starts the next attempt — accumulating 1200 units of wall time,
4 times the 300-unit value the docstring calls a global timeout, before
ending in `RetryError`; no outcome of kind `DeadlineExceeded` exists. -/
theorem C2_timeout_is_per_attempt_not_deadline :
    (async_retry ⟨3, 1, 2, some 300⟩ (fun _ => true) false
        (fun _ => RawOutcome.ok 0 1000) (α := Nat)).1 =
      .retryExhausted asyncioTimeoutError ∧
    attemptCount (async_retry ⟨3, 1, 2, some 300⟩ (fun _ => true) false
        (fun _ => RawOutcome.ok 0 1000) (α := Nat)).2 = 4 ∧
    elapsedTotal (async_retry ⟨3, 1, 2, some 300⟩ (fun _ => true) false
        (fun _ => RawOutcome.ok 0 1000) (α := Nat)).2 = 1200 ∧
    (300 : ℚ) < 1200 := by
  have htr : (async_retry ⟨3, 1, 2, some 300⟩ (fun _ => true) false
      (fun _ => RawOutcome.ok 0 1000) (α := Nat)).2 =
      [.attempt 0 300, .attempt 1 300, .attempt 2 300, .attempt 3 300] := by
    decide
  refine ⟨by decide, by decide, ?_, by norm_num⟩
  rw [htr]
  norm_num [elapsedTotal]

/-- C3 counterexample: with `max_retries = 2` and an observer supplied, an
operation failing on all 3 attempts with a retryable exception triggers only
2 observer calls — the final failed attempt does not invoke the observer —
so the observer is not invoked once per failed attempt. -/
theorem C3_counterexample :
    (async_retry ⟨2, 1, 2, none⟩ (fun _ => true) true
        (fun _ => RawOutcome.exn ⟨1, false⟩ 0) (α := Nat)).1 =
      .retryExhausted ⟨1, false⟩ ∧
    attemptCount (async_retry ⟨2, 1, 2, none⟩ (fun _ => true) true
        (fun _ => RawOutcome.exn ⟨1, false⟩ 0) (α := Nat)).2 = 3 ∧
    observerCount (async_retry ⟨2, 1, 2, none⟩ (fun _ => true) true
        (fun _ => RawOutcome.exn ⟨1, false⟩ 0) (α := Nat)).2 = 2 ∧
    (2 : Nat) ≠ 3 := by
  decide

/-- Whether attempt `i`'s effective outcome — after `asyncio.wait_for` — is
a failure that enters the `except exceptions` branch of `async_retry`: an
exception matched by the `exceptions` parameter that is not an
`asyncio.TimeoutError`. -/
def isRetryableFailureAt {α : Type} (excMatches : Exc → Bool) (timeout : Option ℚ)
    (op : Nat → RawOutcome α) (i : Nat) : Bool :=
  match waitFor timeout (op i) with
  | .ok _ _ => false
  | .exn e _ => !e.timeoutLike && excMatches e

/-- Helper: one loop iteration of `async_retry` (observer supplied), by the
effective outcome of the current attempt: a success ends the run; a
timed-out attempt continues the loop with no observer call and no sleep; a
matched non-timeout failure on a non-final attempt records an observer call
then a sleep and continues; a final-attempt or unmatched failure ends the
run. -/
theorem retryAux_succ_trace_cases {α : Type} (excMatches : Exc → Bool)
    (timeout : Option ℚ) (backoff : ℚ) (op : Nat → RawOutcome α)
    (fuel k : Nat) (c : ℚ) (last : Option Exc) :
    (∃ v d, waitFor timeout (op k) = .ok v d ∧
      (retryAux excMatches true timeout backoff op (fuel + 1) k c last).2 =
        [.attempt k d]) ∨
    (∃ e d, waitFor timeout (op k) = .exn e d ∧ e.timeoutLike = true ∧
      (retryAux excMatches true timeout backoff op (fuel + 1) k c last).2 =
        .attempt k d ::
          (retryAux excMatches true timeout backoff op fuel (k + 1) c (some e)).2) ∨
    (∃ e d, waitFor timeout (op k) = .exn e d ∧ e.timeoutLike = false ∧
      excMatches e = true ∧ fuel ≠ 0 ∧
      (retryAux excMatches true timeout backoff op (fuel + 1) k c last).2 =
        .attempt k d :: .observerCall e k :: .sleep c ::
          (retryAux excMatches true timeout backoff op fuel (k + 1)
            (c * backoff) (some e)).2) ∨
    (∃ e d, waitFor timeout (op k) = .exn e d ∧ e.timeoutLike = false ∧
      (excMatches e = false ∨ fuel = 0) ∧
      (retryAux excMatches true timeout backoff op (fuel + 1) k c last).2 =
        [.attempt k d]) := by
  rcases hw : waitFor timeout (op k) with ⟨v, d⟩ | ⟨e, d⟩
  · left
    refine ⟨v, d, rfl, ?_⟩
    rw [retryAux.eq_3, hw]
  · by_cases ht : e.timeoutLike
    · right; left
      refine ⟨e, d, rfl, ht, ?_⟩
      rw [retryAux.eq_3, hw]
      simp [ht]
    · by_cases hm : excMatches e
      · by_cases hf : fuel = 0
        · right; right; right
          refine ⟨e, d, rfl, by simp [ht], Or.inr hf, ?_⟩
          rw [retryAux.eq_3, hw]
          simp [ht, hm, hf]
        · right; right; left
          refine ⟨e, d, rfl, by simp [ht], hm, hf, ?_⟩
          rw [retryAux.eq_3, hw]
          simp [ht, hm, hf]
      · right; right; right
        refine ⟨e, d, rfl, by simp [ht], Or.inl (by simp [hm]), ?_⟩
        rw [retryAux.eq_3, hw]
        simp [ht, hm]

/-- Helper: an `attempt` event adds one to the attempt count. -/
theorem attemptCount_cons_attempt (k : Nat) (d : ℚ) (tr : List RetryEvent) :
    attemptCount (.attempt k d :: tr) = attemptCount tr + 1 := by
  simp [attemptCount, List.countP_cons]

/-- Helper: an `observerCall` event does not change the attempt count. -/
theorem attemptCount_cons_observer (e : Exc) (k : Nat) (tr : List RetryEvent) :
    attemptCount (.observerCall e k :: tr) = attemptCount tr := by
  simp [attemptCount, List.countP_cons]

/-- Helper: a `sleep` event does not change the attempt count. -/
theorem attemptCount_cons_sleep (d : ℚ) (tr : List RetryEvent) :
    attemptCount (.sleep d :: tr) = attemptCount tr := by
  simp [attemptCount, List.countP_cons]

/-- Helper: an `attempt` event does not change the observer-call count. -/
theorem observerCount_cons_attempt (k : Nat) (d : ℚ) (tr : List RetryEvent) :
    observerCount (.attempt k d :: tr) = observerCount tr := by
  simp [observerCount, List.countP_cons]

/-- Helper: an `observerCall` event adds one to the observer-call count. -/
theorem observerCount_cons_observer (e : Exc) (k : Nat) (tr : List RetryEvent) :
    observerCount (.observerCall e k :: tr) = observerCount tr + 1 := by
  simp [observerCount, List.countP_cons]

/-- Helper: a `sleep` event does not change the observer-call count. -/
theorem observerCount_cons_sleep (d : ℚ) (tr : List RetryEvent) :
    observerCount (.sleep d :: tr) = observerCount tr := by
  simp [observerCount, List.countP_cons]

/-- Helper: any observer call recorded anywhere in any run's trace is for an
attempt whose effective outcome was an exception matched by the `exceptions`
parameter and not an `asyncio.TimeoutError` — in particular a timed-out
attempt never produces an observer call. -/
theorem observerCall_mem_retryAux {α : Type} (excMatches : Exc → Bool)
    (timeout : Option ℚ) (backoff : ℚ) (op : Nat → RawOutcome α) :
    ∀ fuel k c last e i,
      RetryEvent.observerCall e i ∈
        (retryAux excMatches true timeout backoff op fuel k c last).2 →
      e.timeoutLike = false ∧ excMatches e = true ∧
        ∃ d, waitFor timeout (op i) = .exn e d := by
  intro fuel
  induction fuel with
  | zero =>
    intro k c last e i hmem
    cases last <;> simp [retryAux] at hmem
  | succ fuel ih =>
    intro k c last e i hmem
    rcases retryAux_succ_trace_cases excMatches timeout backoff op fuel k c last with
      ⟨v, d, hw, htr⟩ | ⟨e2, d, hw, ht, htr⟩ | ⟨e2, d, hw, ht, hm, hf, htr⟩ |
      ⟨e2, d, hw, ht, hrest, htr⟩
    · rw [htr] at hmem
      simp only [List.mem_singleton] at hmem
      exact RetryEvent.noConfusion hmem
    · rw [htr] at hmem
      simp only [List.mem_cons] at hmem
      rcases hmem with hbad | hmem
      · exact RetryEvent.noConfusion hbad
      · exact ih (k + 1) c (some e2) e i hmem
    · rw [htr] at hmem
      simp only [List.mem_cons] at hmem
      rcases hmem with hbad | hobs | hbad2 | hmem
      · exact RetryEvent.noConfusion hbad
      · injection hobs with h1 h2
        subst h1
        subst h2
        exact ⟨ht, hm, d, hw⟩
      · exact RetryEvent.noConfusion hbad2
      · exact ih (k + 1) (c * backoff) (some e2) e i hmem
    · rw [htr] at hmem
      simp only [List.mem_singleton] at hmem
      exact RetryEvent.noConfusion hmem

/-- Helper: in any run's trace, the event right after an observer call is
the backoff sleep of the same loop iteration. -/
theorem observer_then_sleep_retryAux {α : Type} (excMatches : Exc → Bool)
    (timeout : Option ℚ) (backoff : ℚ) (op : Nat → RawOutcome α) :
    ∀ fuel k c last n e i,
      (retryAux excMatches true timeout backoff op fuel k c last).2[n]? =
        some (RetryEvent.observerCall e i) →
      ∃ d, (retryAux excMatches true timeout backoff op fuel k c last).2[n + 1]? =
        some (RetryEvent.sleep d) := by
  intro fuel
  induction fuel with
  | zero =>
    intro k c last n e i h
    cases last <;> simp [retryAux] at h
  | succ fuel ih =>
    intro k c last n e i h
    rcases retryAux_succ_trace_cases excMatches timeout backoff op fuel k c last with
      ⟨v, d, hw, htr⟩ | ⟨e2, d, hw, ht, htr⟩ | ⟨e2, d, hw, ht, hm, hf, htr⟩ |
      ⟨e2, d, hw, ht, hrest, htr⟩
    · rw [htr] at h ⊢
      cases n <;> simp at h
    · rw [htr] at h ⊢
      cases n with
      | zero => simp at h
      | succ n1 =>
        simp only [List.getElem?_cons_succ] at h ⊢
        exact ih (k + 1) c (some e2) n1 e i h
    · rw [htr] at h ⊢
      cases n with
      | zero => simp at h
      | succ n1 =>
        cases n1 with
        | zero =>
          refine ⟨c, ?_⟩
          simp
        | succ n2 =>
          cases n2 with
          | zero => simp at h
          | succ n3 =>
            simp only [List.getElem?_cons_succ] at h ⊢
            exact ih (k + 1) (c * backoff) (some e2) n3 e i h
    · rw [htr] at h ⊢
      cases n <;> simp at h

/-- Helper: a run with at least one loop iteration records at least one
attempt. -/
theorem attemptCount_retryAux_pos {α : Type} (excMatches : Exc → Bool)
    (timeout : Option ℚ) (backoff : ℚ) (op : Nat → RawOutcome α)
    (fuel k : Nat) (c : ℚ) (last : Option Exc) :
    1 ≤ attemptCount
      (retryAux excMatches true timeout backoff op (fuel + 1) k c last).2 := by
  rcases retryAux_succ_trace_cases excMatches timeout backoff op fuel k c last with
    ⟨v, d, hw, htr⟩ | ⟨e2, d, hw, ht, htr⟩ | ⟨e2, d, hw, ht, hm, hf, htr⟩ |
    ⟨e2, d, hw, ht, hrest, htr⟩ <;>
  · rw [htr, attemptCount_cons_attempt]
    omega

/-- Helper: the attempts recorded in a run's trace starting at index `k` are
exactly the indices `k, k+1, …` up to the attempt count. -/
theorem attempt_mem_iff_retryAux {α : Type} (excMatches : Exc → Bool)
    (timeout : Option ℚ) (backoff : ℚ) (op : Nat → RawOutcome α) :
    ∀ fuel k c last i,
      (∃ d, RetryEvent.attempt i d ∈
        (retryAux excMatches true timeout backoff op fuel k c last).2) ↔
      (k ≤ i ∧ i < k + attemptCount
        (retryAux excMatches true timeout backoff op fuel k c last).2) := by
  intro fuel
  induction fuel with
  | zero =>
    intro k c last i
    cases last <;> simp [retryAux, attemptCount]
  | succ fuel ih =>
    intro k c last i
    rcases retryAux_succ_trace_cases excMatches timeout backoff op fuel k c last with
      ⟨v, d, hw, htr⟩ | ⟨e2, d, hw, ht, htr⟩ | ⟨e2, d, hw, ht, hm, hf, htr⟩ |
      ⟨e2, d, hw, ht, hrest, htr⟩
    · rw [htr, attemptCount_cons_attempt]
      constructor
      · rintro ⟨d2, hd2⟩
        simp only [List.mem_singleton] at hd2
        injection hd2 with h1 h2
        subst h1
        simp [attemptCount]
      · intro hb
        have : i = k := by
          simp [attemptCount] at hb
          omega
        subst this
        exact ⟨d, List.mem_singleton_self _⟩
    · rw [htr, attemptCount_cons_attempt]
      have htail := ih (k + 1) c (some e2) i
      constructor
      · rintro ⟨d2, hd2⟩
        rcases List.mem_cons.mp hd2 with heq | hmem
        · injection heq with h1 h2
          omega
        · have hb := htail.mp ⟨d2, hmem⟩
          omega
      · intro hb
        by_cases hik : i = k
        · subst hik
          exact ⟨d, List.mem_cons_self _ _⟩
        · obtain ⟨d2, hd2⟩ := htail.mpr ⟨by omega, by omega⟩
          exact ⟨d2, List.mem_cons_of_mem _ hd2⟩
    · rw [htr, attemptCount_cons_attempt, attemptCount_cons_observer,
        attemptCount_cons_sleep]
      have htail := ih (k + 1) (c * backoff) (some e2) i
      constructor
      · rintro ⟨d2, hd2⟩
        rcases List.mem_cons.mp hd2 with heq | hd3
        · injection heq with h1 h2
          omega
        · rcases List.mem_cons.mp hd3 with hbad | hd4
          · exact RetryEvent.noConfusion hbad
          · rcases List.mem_cons.mp hd4 with hbad2 | hmem
            · exact RetryEvent.noConfusion hbad2
            · have hb := htail.mp ⟨d2, hmem⟩
              omega
      · intro hb
        by_cases hik : i = k
        · subst hik
          exact ⟨d, List.mem_cons_self _ _⟩
        · obtain ⟨d2, hd2⟩ := htail.mpr ⟨by omega, by omega⟩
          exact ⟨d2, List.mem_cons_of_mem _ (List.mem_cons_of_mem _
            (List.mem_cons_of_mem _ hd2))⟩
    · rw [htr, attemptCount_cons_attempt]
      constructor
      · rintro ⟨d2, hd2⟩
        simp only [List.mem_singleton] at hd2
        injection hd2 with h1 h2
        subst h1
        simp [attemptCount]
      · intro hb
        have : i = k := by
          simp [attemptCount] at hb
          omega
        subst this
        exact ⟨d, List.mem_singleton_self _⟩

/-- Helper: in any run, the number of observer calls equals the number of
non-final attempts whose effective outcome was a matched non-timeout
failure. -/
theorem observerCount_eq_retryAux {α : Type} (excMatches : Exc → Bool)
    (timeout : Option ℚ) (backoff : ℚ) (op : Nat → RawOutcome α) :
    ∀ fuel k c last,
      observerCount (retryAux excMatches true timeout backoff op fuel k c last).2 =
        (List.range' k (attemptCount
          (retryAux excMatches true timeout backoff op fuel k c last).2 - 1)).countP
          (isRetryableFailureAt excMatches timeout op) := by
  intro fuel
  induction fuel with
  | zero =>
    intro k c last
    cases last <;> simp [retryAux, observerCount, attemptCount]
  | succ fuel ih =>
    intro k c last
    rcases retryAux_succ_trace_cases excMatches timeout backoff op fuel k c last with
      ⟨v, d, hw, htr⟩ | ⟨e2, d, hw, ht, htr⟩ | ⟨e2, d, hw, ht, hm, hf, htr⟩ |
      ⟨e2, d, hw, ht, hrest, htr⟩
    · rw [htr, attemptCount_cons_attempt, observerCount_cons_attempt]
      simp [observerCount, attemptCount]
    · rw [htr, attemptCount_cons_attempt, observerCount_cons_attempt]
      have htail := ih (k + 1) c (some e2)
      have hpred : isRetryableFailureAt excMatches timeout op k = false := by
        simp [isRetryableFailureAt, hw, ht]
      cases hm0 : attemptCount
          (retryAux excMatches true timeout backoff op fuel (k + 1) c (some e2)).2 with
      | zero =>
        rw [hm0] at htail
        simp only [Nat.zero_sub, List.range'_zero, List.countP_nil] at htail
        rw [htail]
        simp [hm0]
      | succ m =>
        rw [hm0] at htail
        rw [htail]
        simp only [Nat.succ_sub_one, Nat.add_sub_cancel]
        rw [show List.range' k (m + 1) = k :: List.range' (k + 1) m from rfl,
          List.countP_cons, hpred]
        simp
    · rw [htr, attemptCount_cons_attempt, attemptCount_cons_observer,
        attemptCount_cons_sleep, observerCount_cons_attempt,
        observerCount_cons_observer, observerCount_cons_sleep]
      obtain ⟨f2, rfl⟩ := Nat.exists_eq_succ_of_ne_zero hf
      have htail := ih (k + 1) (c * backoff) (some e2)
      have hpos := attemptCount_retryAux_pos excMatches timeout backoff op f2 (k + 1)
        (c * backoff) (some e2)
      have hpred : isRetryableFailureAt excMatches timeout op k = true := by
        simp [isRetryableFailureAt, hw, ht, hm]
      cases hm0 : attemptCount
          (retryAux excMatches true timeout backoff op (f2 + 1) (k + 1)
            (c * backoff) (some e2)).2 with
      | zero =>
        rw [hm0] at hpos
        omega
      | succ m =>
        rw [hm0] at htail
        rw [htail]
        simp only [Nat.succ_sub_one, Nat.add_sub_cancel]
        rw [show List.range' k (m + 1) = k :: List.range' (k + 1) m from rfl,
          List.countP_cons, hpred]
        simp [Nat.add_comm]
    · rw [htr, attemptCount_cons_attempt, observerCount_cons_attempt]
      simp [observerCount, attemptCount]

/-- C3 (amended): for every policy, exception filter and operation — per-
attempt timeouts, mixed outcomes and successes included — a run of
`async_retry` with an observer supplied satisfies: (1) every observer call
in the trace is for an attempt whose effective outcome was a retryable
(matched, non-timeout) exception, so a timed-out attempt never invokes the
observer; (2) every observer call is immediately followed by its backoff
sleep; (3) the attempts of the trace are exactly the indices
`0 … attemptCount − 1`, the last one being the final attempt; and (4) the
number of observer calls equals the number of non-final attempt indices
whose effective outcome was a matched non-timeout failure — exactly once
per such failed attempt, and never for timed-out attempts or the final
attempt. -/
theorem C3_amended_observer_discipline {α : Type} (P : RetryPolicy)
    (excMatches : Exc → Bool) (op : Nat → RawOutcome α) :
    (∀ e i, RetryEvent.observerCall e i ∈ (async_retry P excMatches true op).2 →
      e.timeoutLike = false ∧ excMatches e = true ∧
        ∃ d, waitFor P.timeout (op i) = .exn e d) ∧
    (∀ n e i, (async_retry P excMatches true op).2[n]? =
        some (RetryEvent.observerCall e i) →
      ∃ d, (async_retry P excMatches true op).2[n + 1]? =
        some (RetryEvent.sleep d)) ∧
    (∀ i, (∃ d, RetryEvent.attempt i d ∈ (async_retry P excMatches true op).2) ↔
      i < attemptCount (async_retry P excMatches true op).2) ∧
    observerCount (async_retry P excMatches true op).2 =
      (List.range (attemptCount (async_retry P excMatches true op).2 - 1)).countP
        (isRetryableFailureAt excMatches P.timeout op) := by
  unfold async_retry
  refine ⟨?_, ?_, ?_, ?_⟩
  · intro e i hmem
    exact observerCall_mem_retryAux excMatches P.timeout P.backoff op
      (P.maxRetries + 1) 0 P.delay none e i hmem
  · intro n e i h
    exact observer_then_sleep_retryAux excMatches P.timeout P.backoff op
      (P.maxRetries + 1) 0 P.delay none n e i h
  · intro i
    have h := attempt_mem_iff_retryAux excMatches P.timeout P.backoff op
      (P.maxRetries + 1) 0 P.delay none i
    simpa using h
  · rw [List.range_eq_range']
    exact observerCount_eq_retryAux excMatches P.timeout P.backoff op
      (P.maxRetries + 1) 0 P.delay none

/-- A mixed operation: the first invocation runs 1000 units (overrunning a
300-unit per-attempt timeout), every later one raises the retryable
exception `⟨1, false⟩` immediately. -/
def mixedOp : Nat → RawOutcome Nat := fun k =>
  if k = 0 then .ok 0 1000 else .exn ⟨1, false⟩ 0

/-- Sanity: the mixed run's trace — the timed-out attempt 0 produces no
observer call and no sleep, the matched failure of attempt 1 produces an
observer call immediately followed by its sleep, and the final attempt 2
produces neither. -/
example : (async_retry ⟨2, 1, 2, some 300⟩ (fun _ => true) true mixedOp).2 =
    [.attempt 0 300, .attempt 1 0, .observerCall ⟨1, false⟩ 1, .sleep 1,
     .attempt 2 0] := by
  decide

/-- Witness for the amended C3 on a mixed run (a timed-out attempt, then a
matched failure, then the final attempt): the observer call at trace
position 2 is for a matched non-timeout failure, is immediately followed by
a sleep, and the observer-call count equals the count of non-final
matched non-timeout failures. -/
theorem C3_discipline_witness :
    ((⟨1, false⟩ : Exc).timeoutLike = false ∧
      (fun (_ : Exc) => true) (⟨1, false⟩ : Exc) = true ∧
      ∃ d, waitFor (some 300) (mixedOp 1) = .exn ⟨1, false⟩ d) ∧
    (∃ d, (async_retry ⟨2, 1, 2, some 300⟩ (fun _ => true) true mixedOp).2[3]? =
      some (RetryEvent.sleep d)) ∧
    observerCount (async_retry ⟨2, 1, 2, some 300⟩ (fun _ => true) true mixedOp).2 =
      (List.range (attemptCount
        (async_retry ⟨2, 1, 2, some 300⟩ (fun _ => true) true mixedOp).2 - 1)).countP
        (isRetryableFailureAt (fun _ => true) (some 300) mixedOp) := by
  have h := C3_amended_observer_discipline ⟨2, 1, 2, some 300⟩ (fun _ => true) mixedOp
  exact ⟨h.1 ⟨1, false⟩ 1 (by decide), h.2.1 2 ⟨1, false⟩ 1 (by decide), h.2.2.2⟩

/-! ### Embedding of `Analyzer._chunk_transcript` (`analysis.py` lines 39-83)

Text is `List Char`; the tokenizer (`self.encoding.encode`) enters only
through its token count, abstracted as a function `tok` from a sentence to
its token count. -/

/-- The sentence separator of `_chunk_transcript`: `transcript.split('. ')`
and `'. '.join(...)`. -/
def sentSep : List Char := ['.', ' ']

/-- Python `transcript.split('. ')` on text as a character list: cut at every
non-overlapping occurrence of `'. '`, scanning left to right. -/
def splitSentences : List Char → List (List Char)
  | [] => [[]]
  | [c] => [[c]]
  | c :: d :: rest =>
    if c = '.' ∧ d = ' ' then [] :: splitSentences rest
    else (splitSentences (d :: rest)).modifyHead (fun g => c :: g)

/-- Python `sep.join(parts)`. -/
def joinSep (sep : List Char) : List (List Char) → List Char
  | [] => []
  | [g] => g
  | g :: gs => g ++ sep ++ joinSep sep gs

/-- Helper: a split always yields at least one (possibly empty) sentence. -/
theorem splitSentences_ne_nil (s : List Char) : splitSentences s ≠ [] := by
  induction s using splitSentences.induct with
  | case1 => simp [splitSentences]
  | case2 c => simp [splitSentences]
  | case3 c d rest h ih => simp [splitSentences, h]
  | case4 c d rest h ih =>
    simp only [splitSentences, if_neg h]
    cases hs : splitSentences (d :: rest) with
    | nil => exact absurd hs ih
    | cons g t => simp [List.modifyHead]

/-- Helper: prepending a character to the first joined part prepends it to
the join. -/
theorem joinSep_cons_head (sep : List Char) (c : Char) (g : List Char)
    (t : List (List Char)) :
    joinSep sep ((c :: g) :: t) = c :: joinSep sep (g :: t) := by
  cases t <;> simp [joinSep]

/-- Helper: `'. '.join` is a left inverse of `split('. ')`. -/
theorem joinSep_splitSentences (s : List Char) :
    joinSep sentSep (splitSentences s) = s := by
  induction s using splitSentences.induct with
  | case1 => simp [splitSentences, joinSep]
  | case2 c => simp [splitSentences, joinSep]
  | case3 c d rest h ih =>
    obtain ⟨hc, hd⟩ := h
    subst hc hd
    simp only [splitSentences, if_pos (And.intro rfl rfl)]
    cases hs : splitSentences rest with
    | nil => exact absurd hs (splitSentences_ne_nil rest)
    | cons g t =>
      rw [hs] at ih
      simp only [joinSep]
      rw [ih]
      simp [sentSep]
  | case4 c d rest h ih =>
    simp only [splitSentences, if_neg h]
    cases hs : splitSentences (d :: rest) with
    | nil => exact absurd hs (splitSentences_ne_nil (d :: rest))
    | cons g t =>
      rw [hs] at ih
      simp only [List.modifyHead]
      rw [joinSep_cons_head, ih]

/-- The sentence-accumulation loop of `_chunk_transcript` (lines 58-68):
`cur` mirrors `current_chunk`, `curTokens` mirrors `current_tokens`; when
adding the next sentence would push the running count over `maxTokens` and
the current chunk is non-empty, the chunk is closed; the final partial chunk
is closed after the loop (lines 70-71). -/
def chunkLoop (tok : List Char → Nat) (maxTokens : Nat) :
    List (List Char) → List (List Char) → Nat → List (List (List Char))
  | [], cur, _ => if cur.isEmpty then [] else [cur]
  | s :: rest, cur, curTokens =>
    if curTokens + tok s > maxTokens then
      if cur.isEmpty then chunkLoop tok maxTokens rest (cur ++ [s]) (curTokens + tok s)
      else cur :: chunkLoop tok maxTokens rest [s] (tok s)
    else chunkLoop tok maxTokens rest (cur ++ [s]) (curTokens + tok s)

/-- `Analyzer._chunk_transcript(transcript, max_tokens)`: split into
sentences on `'. '`, group sentences by token budget, and emit each group as
`'. '.join(group) + '.'`. -/
def chunk_transcript (tok : List Char → Nat) (transcript : List Char)
    (maxTokens : Nat) : List (List Char) :=
  (chunkLoop tok maxTokens (splitSentences transcript) [] 0).map
    (fun g => joinSep sentSep g ++ ['.'])

/-- Helper: the chunk groups enumerate exactly the input sentences, in
order. -/
theorem chunkLoop_flatten (tok : List Char → Nat) (B : Nat) :
    ∀ l cur ct, (chunkLoop tok B l cur ct).flatten = cur ++ l := by
  intro l
  induction l with
  | nil =>
    intro cur ct
    by_cases h : cur.isEmpty <;>
      simp_all [chunkLoop, List.isEmpty_iff]
  | cons s rest ih =>
    intro cur ct
    simp only [chunkLoop]
    by_cases h1 : ct + tok s > B
    · by_cases h2 : cur.isEmpty
      · simp [h1, h2, ih]
      · simp [h1, h2, ih]
    · simp [h1, ih]

/-- Helper: no emitted chunk group is empty. -/
theorem chunkLoop_groups_ne_nil (tok : List Char → Nat) (B : Nat) :
    ∀ l cur ct g, g ∈ chunkLoop tok B l cur ct → g ≠ [] := by
  intro l
  induction l with
  | nil =>
    intro cur ct g hg
    by_cases h : cur.isEmpty <;> simp_all [chunkLoop, List.isEmpty_iff]
  | cons s rest ih =>
    intro cur ct g hg
    simp only [chunkLoop] at hg
    by_cases h1 : ct + tok s > B
    · by_cases h2 : cur.isEmpty
      · simp only [h1, h2, if_true, if_pos] at hg
        exact ih _ _ _ hg
      · simp only [h1, h2, if_true, if_false, ite_true, ite_false,
          Bool.false_eq_true] at hg
        rcases List.mem_cons.mp hg with h | h
        · subst h
          simpa [List.isEmpty_iff] using h2
        · exact ih _ _ _ h
    · simp only [h1, if_false] at hg
      exact ih _ _ _ hg

/-- Helper: a split with at least one sentence yields at least one chunk. -/
theorem chunkLoop_ne_nil (tok : List Char → Nat) (B : Nat) :
    ∀ l cur ct, cur ≠ [] ∨ l ≠ [] → chunkLoop tok B l cur ct ≠ [] := by
  intro l
  induction l with
  | nil =>
    intro cur ct h
    rcases h with h | h
    · simp [chunkLoop, List.isEmpty_iff, h]
    · simp at h
  | cons s rest ih =>
    intro cur ct _
    simp only [chunkLoop]
    by_cases h1 : ct + tok s > B
    · by_cases h2 : cur.isEmpty
      · simp only [h1, h2, if_true]
        exact ih _ _ (Or.inl (by simp))
      · simp [h1, h2]
    · simp only [h1, if_false]
      exact ih _ _ (Or.inl (by simp))

/-- Helper: joining a concatenation of non-empty part lists distributes over
the separator. -/
theorem joinSep_append (sep : List Char) :
    ∀ (A B : List (List Char)), A ≠ [] → B ≠ [] →
      joinSep sep (A ++ B) = joinSep sep A ++ sep ++ joinSep sep B := by
  intro A
  induction A with
  | nil => intro B hA _; exact absurd rfl hA
  | cons a A ih =>
    intro B hA hB
    cases A with
    | nil =>
      cases B with
      | nil => exact absurd rfl hB
      | cons b B => simp [joinSep]
    | cons a2 A2 =>
      have h2 : joinSep sep ((a2 :: A2) ++ B) =
          joinSep sep (a2 :: A2) ++ sep ++ joinSep sep B :=
        ih B (by simp) hB
      rw [List.cons_append] at h2
      simp only [List.cons_append, joinSep, List.append_eq]
      rw [h2]
      simp [List.append_assoc]

/-- Helper: the `' '`-join of the emitted chunks of non-empty groups equals
the `'. '`-join of all sentences followed by one final `'.'`. -/
theorem joinSpace_chunks :
    ∀ (groups : List (List (List Char))), groups ≠ [] →
      (∀ g ∈ groups, g ≠ []) →
      joinSep [' '] (groups.map (fun g => joinSep sentSep g ++ ['.'])) =
        joinSep sentSep groups.flatten ++ ['.'] := by
  intro groups
  induction groups with
  | nil => intro h _; exact absurd rfl h
  | cons g t ih =>
    intro _ hne
    cases t with
    | nil => simp [joinSep]
    | cons g2 t2 =>
      have hg : g ≠ [] := hne g (by simp)
      have hg2 : g2 ≠ [] := hne g2 (by simp)
      have iht := ih (by simp) (fun x hx => hne x (List.mem_cons_of_mem _ hx))
      simp only [List.map_cons, joinSep, List.flatten_cons] at *
      rw [iht]
      rw [joinSep_append sentSep g (g2 ++ t2.flatten) hg
        (by intro h; rw [List.append_eq_nil] at h; exact hg2 h.1)]
      simp [sentSep, List.append_assoc]

/-- C4 counterexample: for the one-character transcript `"a"` and budget
4000, the single produced chunk is `"a."`, and re-joining the chunk list
with the `'. '` separator yields `"a."`, not the original transcript
`"a"`: the split-then-join round trip of the claim fails. -/
theorem C4_counterexample :
    chunk_transcript List.length ['a'] 4000 = [['a', '.']] ∧
    joinSep sentSep (chunk_transcript List.length ['a'] 4000) = ['a', '.'] ∧
    (['a', '.'] : List Char) ≠ ['a'] := by
  decide

/-- C4 (amended): for every tokenizer, transcript and budget, joining the
chunks produced by `_chunk_transcript` with a single space yields the
original transcript with one `'.'` appended — the round trip is off by
exactly the final `'.'` that the splitter appends to every chunk, and holds
with separator `' '` rather than the sentence separator `'. '` (each chunk
already ends in `'.'`). -/
theorem C4_amended_space_join_appends_period (tok : List Char → Nat)
    (T : List Char) (B : Nat) :
    joinSep [' '] (chunk_transcript tok T B) = T ++ ['.'] := by
  unfold chunk_transcript
  rw [joinSpace_chunks _ (chunkLoop_ne_nil tok B _ [] 0 (Or.inr (splitSentences_ne_nil T)))
    (chunkLoop_groups_ne_nil tok B _ [] 0)]
  rw [chunkLoop_flatten]
  simp [joinSep_splitSentences]

/-! ### Embedding of `Analyzer._combine_analyses` (`analysis.py` lines 164-206)

The chunk-level JSON records share a fixed schema: three scalar fields
(`identification`, `participants`, `structure` — the last renamed
`structure_` because `structure` is a Lean keyword) over a scalar value type
`σ`, and seven list fields over an element type `ε`. -/

structure AnalysisRec (σ ε : Type) where
  identification : σ
  participants : σ
  structure_ : σ
  resume : List ε
  echanges : List ε
  citations : List ε
  problematiques : List ε
  positionnements : List ε
  signaux_faibles : List ε
  annexes : List ε

/-- The body of the `for analysis in analyses` loop (lines 189-196): each
list field of the accumulator is extended with the chunk's list field. -/
def combineStep {σ ε : Type} (acc an : AnalysisRec σ ε) : AnalysisRec σ ε :=
  { acc with
    resume := acc.resume ++ an.resume
    echanges := acc.echanges ++ an.echanges
    citations := acc.citations ++ an.citations
    problematiques := acc.problematiques ++ an.problematiques
    positionnements := acc.positionnements ++ an.positionnements
    signaux_faibles := acc.signaux_faibles ++ an.signaux_faibles
    annexes := acc.annexes ++ an.annexes }

/-- `Analyzer._combine_analyses(analyses)`: scalar fields are taken from
`analyses[0]` (an `IndexError` — modelled as `none` — on an empty list),
list fields start empty and are extended across all chunks in order. -/
def combine_analyses {σ ε : Type} (analyses : List (AnalysisRec σ ε)) :
    Option (AnalysisRec σ ε) :=
  match analyses with
  | [] => none
  | a0 :: _ =>
    some (analyses.foldl combineStep
      { identification := a0.identification
        participants := a0.participants
        structure_ := a0.structure_
        resume := []
        echanges := []
        citations := []
        problematiques := []
        positionnements := []
        signaux_faibles := []
        annexes := [] })

/-- Helper: the merge loop appends, per list field, the concatenation of
that field across the chunks, and never touches the scalar fields. -/
theorem foldl_combineStep {σ ε : Type} (l : List (AnalysisRec σ ε)) :
    ∀ acc, l.foldl combineStep acc =
      { acc with
        resume := acc.resume ++ l.flatMap (fun an => an.resume)
        echanges := acc.echanges ++ l.flatMap (fun an => an.echanges)
        citations := acc.citations ++ l.flatMap (fun an => an.citations)
        problematiques := acc.problematiques ++ l.flatMap (fun an => an.problematiques)
        positionnements := acc.positionnements ++ l.flatMap (fun an => an.positionnements)
        signaux_faibles := acc.signaux_faibles ++ l.flatMap (fun an => an.signaux_faibles)
        annexes := acc.annexes ++ l.flatMap (fun an => an.annexes) } := by
  induction l with
  | nil => intro acc; simp
  | cons a l ih =>
    intro acc
    rw [List.foldl_cons, ih]
    simp [combineStep, List.append_assoc]

/-- C7: merging a non-empty ordered list of chunk records takes the three
scalar fields verbatim from the first chunk and concatenates every list
field across chunks in chunk order, preserving within-chunk order; in
particular merging `[a, b]` yields `resume = a.resume ++ b.resume`. -/
theorem C7_structured_merge_scalars_first_lists_concatenated {σ ε : Type}
    (a b : AnalysisRec σ ε) (rest : List (AnalysisRec σ ε)) :
    combine_analyses (a :: rest) = some
      { identification := a.identification
        participants := a.participants
        structure_ := a.structure_
        resume := (a :: rest).flatMap (fun an => an.resume)
        echanges := (a :: rest).flatMap (fun an => an.echanges)
        citations := (a :: rest).flatMap (fun an => an.citations)
        problematiques := (a :: rest).flatMap (fun an => an.problematiques)
        positionnements := (a :: rest).flatMap (fun an => an.positionnements)
        signaux_faibles := (a :: rest).flatMap (fun an => an.signaux_faibles)
        annexes := (a :: rest).flatMap (fun an => an.annexes) } ∧
    (combine_analyses [a, b]).map (fun m => m.resume) = some (a.resume ++ b.resume) := by
  constructor
  · simp only [combine_analyses]
    rw [foldl_combineStep]
    simp
  · simp only [combine_analyses]
    rw [foldl_combineStep]
    simp

/-! ### Embedding of `Transcriber._combine_chunks` (`transcription.py` lines 169-189) -/

/-- One entry of `channel['alternatives']`: the optional `transcript`
payload (`if 'transcript' in alt`). -/
structure DGAlternative where
  transcript : Option (List Char)
deriving DecidableEq

/-- One channel: the optional `alternatives` list
(`if 'alternatives' in channel`). -/
structure DGChannel where
  alternatives : Option (List DGAlternative)
deriving DecidableEq

/-- The `results` member with its optional `channels` list
(`'channels' in chunk['results']`). -/
structure DGResults where
  channels : Option (List DGChannel)
deriving DecidableEq

/-- One chunk result as consumed by `_combine_chunks`
(`'results' in chunk`). -/
structure DGChunk where
  results : Option DGResults
deriving DecidableEq

/-- The nested extraction loop of `_combine_chunks` (lines 181-187):
collect `alt['transcript']` over channels and alternatives, in order. -/
def chunkTranscripts (chunk : DGChunk) : List (List Char) :=
  match chunk.results with
  | none => []
  | some res =>
    match res.channels with
    | none => []
    | some chans =>
      chans.flatMap fun ch =>
        match ch.alternatives with
        | none => []
        | some alts => alts.filterMap fun alt => alt.transcript

/-- `Transcriber._combine_chunks(chunks)`: every extracted payload, in chunk
order, joined by `' '.join` (line 189). -/
def combine_chunks (chunks : List DGChunk) : List Char :=
  joinSep [' '] (chunks.flatMap chunkTranscripts)

/-- A chunk result of the shape one transcription request returns: one
`results` member, one channel, one alternative carrying payload `t`. -/
def mkChunk (t : List Char) : DGChunk :=
  ⟨some ⟨some [⟨some [⟨some t⟩]⟩]⟩⟩

/-- C8 counterexample: on zero chunks `_combine_chunks` returns the empty
string — `' '.join([])` — rather than failing: no `EmptyInput` failure path
exists in the function, which returns a plain string for every input. -/
theorem C8_counterexample : combine_chunks [] = ([] : List Char) := by
  decide

/-- C8 (amended): `_combine_chunks` concatenates the chunk payloads in index
order separated by a single space, and on zero chunks returns the empty
string instead of failing. -/
theorem C8_amended_space_join_and_empty_input (ts : List (List Char)) :
    combine_chunks (ts.map mkChunk) = joinSep [' '] ts ∧
    combine_chunks [] = ([] : List Char) := by
  constructor
  · simp [combine_chunks, List.flatMap_map, chunkTranscripts, mkChunk]
  · decide

/-! ### Embedding of `app.py`: `process_url`, `generate_consolidated_analysis`,
and the consolidation decision of `main` (lines 215-219)

One item (URL) is modelled by the behaviour of its three collaborator
stages: the `error` component returned by `extract_audio` (over an error
type `ξ`), the transcript returned by `transcribe` (a `List τ`, `none` on
failure — Python falsiness also treats an empty transcript as failure), and
the analysis dict returned by `analyze_individual` (a `List α`, with the
same falsiness rule).  `process_url` never raises: its `try/except` returns
an error value for any failure, so the `asyncio.gather` of
`generate_consolidated_analysis` is an order-preserving map over items. -/

structure ItemBehavior (ξ τ α : Type) where
  extractError : Option ξ
  transcript : Option (List τ)
  analysis : Option (List α)
deriving DecidableEq

/-- The failure causes `process_url` can return: the extraction error
string, `"Échec de la transcription"`, or `"Échec de l'analyse"`. -/
inductive FailCause (ξ : Type) where
  | extractionError (e : ξ)
  | transcriptionFailed
  | analysisFailed
deriving DecidableEq

/-- The per-item result dict: either `{"error": ...}` or
`{"transcript": ..., "analysis": ...}`. -/
inductive ProcResult (ξ τ α : Type) where
  | error (cause : FailCause ξ)
  | ok (transcript : List τ) (analysis : List α)
deriving DecidableEq

/-- `process_url(url, theme)` (app.py lines 60-110): extraction, then
transcription (`if not transcript` fails), then analysis
(`if not analysis` fails). -/
def process_url {ξ τ α : Type} (b : ItemBehavior ξ τ α) : ProcResult ξ τ α :=
  match b.extractError with
  | some e => .error (.extractionError e)
  | none =>
    match b.transcript with
    | none => .error .transcriptionFailed
    | some t =>
      if t.isEmpty then .error .transcriptionFailed
      else
        match b.analysis with
        | none => .error .analysisFailed
        | some a =>
          if a.isEmpty then .error .analysisFailed
          else .ok t a

/-- The fan-out `await asyncio.gather(*[process_url(url, theme) for url in
urls])` (app.py lines 126-127): each task returns (never raises), and
`gather` returns the results in the order of the input tasks. -/
def fanOut {ξ τ α : Type} (items : List (ItemBehavior ξ τ α)) :
    List (ProcResult ξ τ α) :=
  items.map process_url

/-- Whether a per-item result is the `{"error": ...}` dict. -/
def ProcResult.isError {ξ τ α : Type} : ProcResult ξ τ α → Bool
  | .error _ => true
  | .ok _ _ => false

/-- `r["error"]` when present (`if "error" in r`). -/
def ProcResult.errorOf {ξ τ α : Type} : ProcResult ξ τ α → Option (FailCause ξ)
  | .error c => some c
  | .ok _ _ => none

/-- `r["analysis"]` when present. -/
def ProcResult.analysisOf {ξ τ α : Type} : ProcResult ξ τ α → Option (List α)
  | .error _ => none
  | .ok _ a => some a

/-- `generate_consolidated_analysis(urls, theme)` (app.py lines 112-150):
process every URL, collect the error components; when any error exists
return `None` without calling `analyze_consolidated`, otherwise call it once
on all the analyses.  The second component counts `analyze_consolidated`
invocations; `consolidate` stands for the resilience-wrapped
`analyzer.analyze_consolidated(analyses, theme)` call. -/
def generate_consolidated_analysis {ξ τ α γ : Type}
    (consolidate : List (List α) → Option γ)
    (items : List (ItemBehavior ξ τ α)) : Option γ × Nat :=
  let results := fanOut items
  let errors := results.filterMap ProcResult.errorOf
  if errors.isEmpty then
    (consolidate (results.filterMap ProcResult.analysisOf), 1)
  else (none, 0)

/-- The pipeline of `main` (app.py lines 199-219): every URL is processed
individually (each result appended to the session results), then — only
when more than one URL was given — `generate_consolidated_analysis` is run. -/
def main_pipeline {ξ τ α γ : Type} (consolidate : List (List α) → Option γ)
    (items : List (ItemBehavior ξ τ α)) :
    List (ProcResult ξ τ α) × Option γ × Nat :=
  (items.map process_url,
   if 1 < items.length then generate_consolidated_analysis consolidate items
   else (none, 0))

/-- C5: the fan-out returns one outcome per original index (totality: the
indexed lookup of the output is the indexed lookup of the input mapped
through the per-item operation, and the lengths agree), in input-index
order, and the outcome at an index depends only on that index's item — so a
sibling's failure cannot alter it. -/
theorem C5_fanout_total_order_preserving_isolated {ξ τ α : Type}
    (items itemsB : List (ItemBehavior ξ τ α)) (i : Nat)
    (h : items[i]? = itemsB[i]?) :
    (fanOut items).length = items.length ∧
    (fanOut items)[i]? = (items[i]?).map process_url ∧
    (fanOut items)[i]? = (fanOut itemsB)[i]? := by
  refine ⟨by simp [fanOut], by simp [fanOut, List.getElem?_map], ?_⟩
  simp [fanOut, List.getElem?_map, h]

/-- An item whose three stages all succeed. -/
def goodItem : ItemBehavior Nat Nat Nat := ⟨none, some [1], some [2]⟩

/-- An item whose extraction stage fails with error `7`. -/
def badItem : ItemBehavior Nat Nat Nat := ⟨some 7, none, none⟩

/-- Five items, the one at index 3 failing. -/
def fiveItems : List (ItemBehavior Nat Nat Nat) :=
  [goodItem, goodItem, goodItem, badItem, goodItem]

/-- Five items agreeing with `fiveItems` only at index 3. -/
def fiveItemsB : List (ItemBehavior Nat Nat Nat) :=
  [badItem, badItem, badItem, badItem, badItem]

/-- Sanity: over `fiveItems` the fan-out yields successes at indices
0, 1, 2, 4 and the failure at index 3. -/
example :
    fanOut fiveItems =
      [.ok [1] [2], .ok [1] [2], .ok [1] [2],
       .error (.extractionError 7), .ok [1] [2]] := by
  decide

/-- Witness for C5 over 5 items with the item at index 3 failing, compared
against a sibling list that agrees only at index 3. -/
theorem C5_witness :
    (fanOut fiveItems).length = fiveItems.length ∧
    (fanOut fiveItems)[3]? = (fiveItems[3]?).map process_url ∧
    (fanOut fiveItems)[3]? = (fanOut fiveItemsB)[3]? :=
  C5_fanout_total_order_preserving_isolated fiveItems fiveItemsB 3 (by decide)

/-- Helper: no error component is collected exactly when every per-item
result is a success. -/
theorem filterMap_errorOf_isEmpty {ξ τ α : Type}
    (results : List (ProcResult ξ τ α)) :
    (results.filterMap ProcResult.errorOf).isEmpty =
      results.all (fun r => !r.isError) := by
  induction results with
  | nil => simp
  | cons r rest ih =>
    cases r <;> simp [ProcResult.errorOf, ProcResult.isError, ih]

/-- C6: the individual results are returned for every item regardless of
failures; exactly one consolidation call happens iff there is more than one
item and every item succeeded; any failed item makes consolidation skipped
entirely (no call, `None` result); and when consolidation runs it receives
all items' analyses. -/
theorem C6_consolidation_iff_multiple_and_all_completed {ξ τ α γ : Type}
    (consolidate : List (List α) → Option γ)
    (items : List (ItemBehavior ξ τ α)) :
    (main_pipeline consolidate items).1 = items.map process_url ∧
    ((main_pipeline consolidate items).2.2 = 1 ↔
      1 < items.length ∧
        (items.map process_url).all (fun r => !r.isError) = true) ∧
    ((items.map process_url).any (fun r => r.isError) = true →
      (main_pipeline consolidate items).2 = (none, 0)) ∧
    ((main_pipeline consolidate items).2.2 = 1 →
      (main_pipeline consolidate items).2.1 =
        consolidate ((items.map process_url).filterMap ProcResult.analysisOf)) := by
  have hkey := filterMap_errorOf_isEmpty (fanOut items)
  simp only [fanOut] at hkey
  have hmp2 : (main_pipeline consolidate items).2 =
      if 1 < items.length then
        (if ((items.map process_url).filterMap ProcResult.errorOf).isEmpty then
          (consolidate ((items.map process_url).filterMap ProcResult.analysisOf), 1)
        else (none, 0))
      else (none, 0) := rfl
  by_cases hlen : 1 < items.length
  · by_cases herr : ((items.map process_url).filterMap ProcResult.errorOf).isEmpty
    · have hall : (items.map process_url).all (fun r => !r.isError) = true := by
        rw [← hkey]; exact herr
      have hnany : ¬((items.map process_url).any (fun r => r.isError) = true) := by
        intro hany
        obtain ⟨r, hr, hp⟩ := List.any_eq_true.mp hany
        have h2 := List.all_eq_true.mp hall r hr
        simp [hp] at h2
      rw [hmp2, if_pos hlen, if_pos herr]
      refine ⟨rfl, by simp [hlen, hall], ?_, fun _ => rfl⟩
      intro hany
      exact absurd hany hnany
    · have hnall : ¬((items.map process_url).all (fun r => !r.isError) = true) := by
        rw [← hkey]; exact herr
      rw [hmp2, if_pos hlen, if_neg herr]
      refine ⟨rfl, by simp [hnall], fun _ => rfl, ?_⟩
      intro h1
      simp at h1
  · rw [hmp2, if_neg hlen]
    refine ⟨rfl, by simp [hlen], fun _ => rfl, ?_⟩
    intro h1
    simp at h1

/-- Two items of which the second fails. -/
def twoItemsOneBad : List (ItemBehavior Nat Nat Nat) := [goodItem, badItem]

/-- Witness for C6 over two items of which the second fails, with a
consolidation stub counting its input analyses. -/
theorem C6_witness :
    (main_pipeline (fun ls => some ls.length) twoItemsOneBad).1 =
      twoItemsOneBad.map process_url ∧
    ((main_pipeline (fun ls => some ls.length) twoItemsOneBad).2.2 = 1 ↔
      1 < twoItemsOneBad.length ∧
        (twoItemsOneBad.map process_url).all (fun r => !r.isError) = true) ∧
    ((twoItemsOneBad.map process_url).any (fun r => r.isError) = true →
      (main_pipeline (fun ls => some ls.length) twoItemsOneBad).2 = (none, 0)) ∧
    ((main_pipeline (fun ls => some ls.length) twoItemsOneBad).2.2 = 1 →
      (main_pipeline (fun ls => some ls.length) twoItemsOneBad).2.1 =
        (fun ls => some ls.length)
          ((twoItemsOneBad.map process_url).filterMap ProcResult.analysisOf)) :=
  C6_consolidation_iff_multiple_and_all_completed (fun ls => some ls.length)
    twoItemsOneBad

/-- Sanity: two successful items trigger exactly one consolidation call over
both analyses; one failure skips it while both individual results remain. -/
example :
    main_pipeline (fun ls => some ls.length) [goodItem, goodItem] =
      ([.ok [1] [2], .ok [1] [2]], some 2, 1) ∧
    main_pipeline (fun ls => some ls.length) twoItemsOneBad =
      ([.ok [1] [2], .error (.extractionError 7)], none, 0) := by
  constructor <;> decide

/-! ### Embedding of `src/utils/metrics.py` (`MetricsCollector`)

The metrics directory is an association list from file stems (the file name
without the `.json` extension, which is what `get_metrics_summary` filters
on) to parsed records; stems are character lists.
`time.strftime("%Y%m%d_%H%M%S")` has one-second resolution: it is a
function of the whole wall-clock second only, modelled as a function of the
epoch second. -/

/-- A parsed persisted metrics record: the fields `get_metrics_summary`
reads from each JSON file. -/
structure MetricsRecord where
  success : Bool
  duration : ℚ
  retries : Nat
  api_calls : Nat
  api_tokens : Nat
deriving DecidableEq

/-- `time.strftime("%Y%m%d_%H%M%S")`: some injective rendering of the
current whole second — crucially, two calls within the same second return
the same string. -/
def timestampOfSecond (tsec : Nat) : List Char := Nat.toDigits 10 tsec

/-- The file stem `f"{metrics.operation}_{timestamp}"` used by
`save_metrics` (line 135). -/
def metricsStem (operation : List Char) (tsec : Nat) : List Char :=
  operation ++ ['_'] ++ timestampOfSecond tsec

/-- `open(filepath, "w")` followed by a full write: creates the file, or
truncates and replaces an existing file of the same name. -/
def fsWrite (fs : List (List Char × MetricsRecord)) (stem : List Char)
    (r : MetricsRecord) : List (List Char × MetricsRecord) :=
  (fs.filter (fun e => e.1 ≠ stem)) ++ [(stem, r)]

/-- `MetricsCollector.save_metrics(metrics)` (lines 124-143) invoked at
wall-clock second `tsec`. -/
def save_metrics (fs : List (List Char × MetricsRecord)) (operation : List Char)
    (tsec : Nat) (r : MetricsRecord) : List (List Char × MetricsRecord) :=
  fsWrite fs (metricsStem operation tsec) r

/-- The dict returned by `get_metrics_summary`. -/
structure MetricsSummary where
  total_operations : Nat
  success_rate : ℚ
  average_duration : ℚ
  average_retries : ℚ
  total_api_calls : Nat
  total_api_tokens : Nat
deriving DecidableEq

/-- `MetricsCollector.get_metrics_summary(operation)` (lines 145-190): glob
all records, keep those whose stem starts with the filter string when one is
given (`f.stem.startswith(operation)`), accumulate, and divide by the count
for the rates. -/
def get_metrics_summary (fs : List (List Char × MetricsRecord))
    (operation : Option (List Char)) : MetricsSummary :=
  let files := match operation with
    | none => fs
    | some op => fs.filter (fun e => op.isPrefixOf e.1)
  let selected := files.map Prod.snd
  let total := selected.length
  { total_operations := total
    success_rate :=
      if total > 0 then ((selected.countP (fun r => r.success)) : ℚ) / total else 0
    average_duration :=
      if total > 0 then (selected.map (fun r => r.duration)).sum / total else 0
    average_retries :=
      if total > 0 then (selected.map (fun r => (r.retries : ℚ))).sum / total else 0
    total_api_calls := (selected.map (fun r => r.api_calls)).sum
    total_api_tokens := (selected.map (fun r => r.api_tokens)).sum }

/-- The operation name `"transcribe"`. -/
def opTranscribe : List Char := "transcribe".toList

/-- The operation name `"transcribe_chunk"`, of which `"transcribe"` is a
proper prefix. -/
def opTranscribeChunk : List Char := "transcribe_chunk".toList

/-- A sample successful record. -/
def recA : MetricsRecord := ⟨true, 1, 0, 1, 10⟩

/-- A sample failed record, distinct from `recA`. -/
def recB : MetricsRecord := ⟨false, 2, 1, 0, 0⟩

/-- C9 counterexample: two `save_metrics` calls for the same operation
within the same wall-clock second produce the same file name, so the second
write overwrites the first: afterwards a single record exists, holding the
second payload — not two distinct records. -/
theorem C9_counterexample :
    save_metrics (save_metrics [] opTranscribe 12345 recA) opTranscribe 12345 recB =
      [(metricsStem opTranscribe 12345, recB)] ∧
    (save_metrics (save_metrics [] opTranscribe 12345 recA) opTranscribe 12345
      recB).length = 1 ∧
    recA ≠ recB := by
  refine ⟨?_, ?_, by decide⟩
  · simp [save_metrics, fsWrite]
  · simp [save_metrics, fsWrite]

/-- C9 (amended): a persisted record is keyed by the operation name plus a
wall-clock timestamp of one-second resolution only; two saves of the same
operation within the same second therefore share one key, and the second
save replaces the first — the earlier record is overwritten, leaving a
single record under that key. -/
theorem C9_amended_same_second_saves_collide_and_overwrite
    (fs : List (List Char × MetricsRecord)) (operation : List Char) (tsec : Nat)
    (r1 r2 : MetricsRecord) :
    save_metrics (save_metrics fs operation tsec r1) operation tsec r2 =
      save_metrics fs operation tsec r2 ∧
    (save_metrics (save_metrics fs operation tsec r1) operation tsec
        r2).filter (fun e => e.1 = metricsStem operation tsec) =
      [(metricsStem operation tsec, r2)] := by
  constructor
  · simp only [save_metrics, fsWrite, List.filter_append]
    rw [List.filter_filter]
    simp
  · simp only [save_metrics, fsWrite, List.filter_append]
    rw [List.filter_filter]
    simp [List.filter_eq_nil_iff]

/-- A store holding one `"transcribe"` record and one `"transcribe_chunk"`
record persisted in the same second. -/
def exStore : List (List Char × MetricsRecord) :=
  [(metricsStem opTranscribe 100, recA), (metricsStem opTranscribeChunk 100, recB)]

/-- C10: summarising with an operation-name filter selects exactly the
records whose file stem has the filter as a prefix — the summary over the
filter equals the unfiltered summary of the prefix-matching records, and
the count is the number of prefix-matching stems.  Concretely, filtering
for `"transcribe"` counts the `"transcribe_chunk"` record as well
(2 records in `exStore`), although the store holds only one record of an
operation actually named `"transcribe"` (the other is the store's one
`"transcribe_chunk"` record). -/
theorem C10_summary_filter_is_prefix_match
    (fs : List (List Char × MetricsRecord)) (op : List Char) :
    get_metrics_summary fs (some op) =
      get_metrics_summary (fs.filter (fun e => op.isPrefixOf e.1)) none ∧
    (get_metrics_summary fs (some op)).total_operations =
      fs.countP (fun e => op.isPrefixOf e.1) ∧
    (get_metrics_summary exStore (some opTranscribe)).total_operations = 2 ∧
    (get_metrics_summary exStore (some opTranscribeChunk)).total_operations = 1 := by
  refine ⟨rfl, ?_, by decide, by decide⟩
  simp [get_metrics_summary, List.countP_eq_length_filter]
